import Mathlib

/-!
Shallow embedding of `improver/utilities/save.py`.

The module saves a batch of cubes to a NetCDF file: it normalizes the
input to a cube list, canonicalizes cell methods, checks metadata,
removes a stale precision attribute, plans chunk sizes, partitions
attribute keys into global/local sets, validates the compression level,
and writes atomically (write to `<filename>.tmp`, then rename).

External collaborators (iris, cf_units, the filesystem, and
`check_mandatory_standards` from a part of the repository outside the
sources given here) are modelled at their interfaces: the iris write
primitive is an oracle parameter deciding success/failure and content,
the filesystem is a map from paths to optional contents, and the
standards check is an abstract per-cube verdict.
-/

namespace Save

instance {ε α : Type} [DecidableEq ε] [DecidableEq α] : DecidableEq (Except ε α) := fun x y =>
  match x, y with
  | Except.error a, Except.error b =>
    match decEq a b with
    | isTrue h => isTrue (by rw [h])
    | isFalse h => isFalse (by intro hc; injection hc; contradiction)
  | Except.error _, Except.ok _ => isFalse (by intro hc; cases hc)
  | Except.ok _, Except.error _ => isFalse (by intro hc; cases hc)
  | Except.ok a, Except.ok b =>
    match decEq a b with
    | isTrue h => isTrue (by rw [h])
    | isFalse h => isFalse (by intro hc; injection hc; contradiction)

/-- A cell method, mirroring the iris `CellMethod` namedtuple with fields
`(method, coord_names, intervals, comments)`.  Python compares namedtuples
lexicographically componentwise, which the `key` order below reproduces. -/
structure CellMethod where
  method : String
  coord_names : List String
  intervals : List String
  comments : List String

/-- Lexicographic comparison key of a cell method: componentwise, in field
order, exactly as Python tuple comparison does.  Strings are compared as
their character lists (code-point lexicographic order, which coincides with
the string order, `String.lt_iff_toList_lt`). -/
def CellMethod.key (m : CellMethod) :
    Lex (List Char ×
      Lex (List (List Char) × Lex (List (List Char) × List (List Char)))) :=
  toLex (m.method.toList, toLex (m.coord_names.map String.toList,
    toLex (m.intervals.map String.toList, m.comments.map String.toList)))

instance : LinearOrder CellMethod :=
  LinearOrder.lift' CellMethod.key (by
    have hinj : Function.Injective String.toList := fun s t hst => String.toList_inj.mp hst
    intro a b h
    cases a
    cases b
    simp only [CellMethod.key, toLex_inj, Prod.mk.injEq] at h
    obtain ⟨h1, h2, h3, h4⟩ := h
    simp only [CellMethod.mk.injEq]
    exact ⟨hinj h1, List.map_injective_iff.mpr hinj h2,
      List.map_injective_iff.mpr hinj h3, List.map_injective_iff.mpr hinj h4⟩)

/-- Attribute mapping of a cube: an ordered list of key/value pairs,
modelling the Python dict of attributes. -/
abbrev Attrs := List (String × String)

/-- The keys of an attribute mapping, in order (Python `dict.keys()`). -/
def Attrs.keys (a : Attrs) : List String :=
  a.map Prod.fst

/-- Python `attributes.pop(k, None)`: remove the entry for `k` if present. -/
def Attrs.pop (a : Attrs) (k : String) : Attrs :=
  a.filter (fun kv => kv.1 != k)

/-- Whether an attribute mapping has an entry for key `k`. -/
def Attrs.hasKey (a : Attrs) (k : String) : Bool :=
  a.any (fun kv => kv.1 == k)

/-- A cube, at the interface this module uses: name, units (a cf_units
unit string), the verdict of the external mandatory-standards check
(modelled abstractly, see `check_mandatory_standards`), cell methods,
attributes and array shape. -/
structure Cube where
  name : String
  units : String
  standardsOk : Bool
  cellMethods : List CellMethod
  attributes : Attrs
  shape : List Nat
deriving DecidableEq

/-- Errors that `save_netcdf` can raise. In Python the first two are
`ValueError`s (metadata respectively configuration), `nameError` is the
`NameError` raised on use of an unbound local variable, and `ioError`
stands for any exception propagated from the external write primitive. -/
inductive SaveError where
  | metadataError (msg : String)
  | configurationError (msg : String)
  | nameError
  | ioError (msg : String)
deriving DecidableEq

/-- Modelled from the spec: `check_mandatory_standards` (defined in
`improver.metadata.check_datatypes`, outside the given sources) verifies
time-coordinate datatypes/units and numeric bit-widths and raises a
metadata `ValueError` on violation; its verdict is abstracted as the
cube's `standardsOk` field. -/
def check_mandatory_standards (c : Cube) : Except SaveError Unit :=
  if c.standardsOk then Except.ok ()
  else Except.error (SaveError.metadataError ("mandatory standards violated for " ++ c.name))

/-- Models `cf_units.Unit(u).is_unknown()`: whether `u` is the unknown
sentinel unit. -/
def unitIsUnknown (u : String) : Bool :=
  u == "unknown"

/-- `_order_cell_methods`: replace the cube's cell methods by the sorted
duplicate-free sequence `tuple(sorted(set(cube.cell_methods)))`: duplicates
are dropped, then the remaining methods are sorted by the comparison order
(the sorted duplicate-free enumeration of a finite set being unique, the
result does not depend on the unspecified set iteration order). -/
def _order_cell_methods (c : Cube) : Cube :=
  { c with cellMethods := List.insertionSort (· ≤ ·) c.cellMethods.dedup }

/-- `_check_metadata`: run the mandatory-standards check, then raise a
metadata error if the cube's units are unknown. -/
def _check_metadata (c : Cube) : Except SaveError Unit :=
  match check_mandatory_standards c with
  | Except.error e => Except.error e
  | Except.ok _ =>
    if unitIsUnknown c.units then
      Except.error (SaveError.metadataError (c.name ++ " has unknown units"))
    else
      Except.ok ()

/-- The stale precision-hint attribute removed before saving. -/
def lsdKey : String :=
  "least_significant_digit"

/-- The full per-cube mutation of the validation loop on a cube that
passes `_check_metadata`: cell methods canonicalized, then the stale
`least_significant_digit` attribute popped. -/
def processCube (c : Cube) : Cube :=
  let c1 := _order_cell_methods c
  { c1 with attributes := Attrs.pop c1.attributes lsdKey }

/-- The validation loop of `save_netcdf`: for each cube in order, sort
its cell methods, check its metadata (stopping at the first error), and
pop the stale precision attribute.  Returns the cube list in its
post-loop state together with the error raised, if any; on error the
failing cube has its cell methods already sorted but its attribute not
yet popped, and later cubes are untouched, as in the Python loop. -/
def validateCubes : List Cube → List Cube × Option SaveError
  | [] => ([], none)
  | c :: rest =>
    match _check_metadata (_order_cell_methods c) with
    | Except.error e => (_order_cell_methods c :: rest, some e)
    | Except.ok _ =>
      (processCube c :: (validateCubes rest).1, (validateCubes rest).2)

/-- The distinct values of `cube.shape[:2]` across the batch, modelling
the Python set `{cube.shape[:2] for cube in cubelist}`. -/
def leadingShapes (cubes : List Cube) : List (List Nat) :=
  (cubes.map (fun c => c.shape.take 2)).dedup

/-- The chunk sizes derived from a single cube when its dimensionality is
at least 2: `(1, ..., 1, shape[-2], shape[-1])`. -/
def chunkOf (c : Cube) : Option (List Nat) :=
  if 2 ≤ c.shape.length then
    some (List.replicate (c.shape.length - 2) 1 ++
      [c.shape.getD (c.shape.length - 2) 0, c.shape.getD (c.shape.length - 1) 0])
  else
    none

/-- Result of the chunk-planning block: the chunk sizes (if any), whether
the varying-dimensions warning was emitted, and the value of the local
variable `cube` after the block (`none` models the variable being
unbound). -/
structure ChunkResult where
  chunksizes : Option (List Nat)
  warned : Bool
  cubeVar : Option Cube
deriving DecidableEq

/-- The chunk-planning block of `save_netcdf`.  `cubeVar` is the value of
the local variable `cube` left over from the validation loop (the last
cube, or unbound for an empty batch).  When all `shape[:2]` values agree
the variable is rebound to the first cube and chunk sizes are derived
from it; otherwise a warning is emitted and the variable is unchanged. -/
def chunkStep (cubes : List Cube) (cubeVar : Option Cube) : ChunkResult :=
  if (leadingShapes cubes).length = 1 then
    match cubes.head? with
    | some c => ⟨chunkOf c, false, some c⟩
    | none => ⟨none, false, cubeVar⟩
  else
    ⟨none, true, cubeVar⟩

/-- Whether a key matches the domain-specific pattern: Python
`"mosg__" in key`, i.e. substring containment. -/
def mosgKey (k : String) : Bool :=
  decide ("mosg__".toList <:+: k.toList)

/-- The fixed allow-list of global attribute keys. -/
def fixedGlobalKeys : List String :=
  ["title", "um_version", "grid_id", "source", "Conventions", "institution", "history"]

/-- The global key list passed to iris: the fixed allow-list extended by
the `mosg__`-matching keys of the single cube bound to the local
variable `cube` at this point. -/
def globalKeys (cubeVar : Cube) : List String :=
  fixedGlobalKeys ++ (Attrs.keys cubeVar.attributes).filter mosgKey

/-- The local key set: every attribute key on any cube of the batch that
is not in the global key list. -/
def localKeys (cubes : List Cube) (gk : List String) : Finset String :=
  ((cubes.map (fun c => (Attrs.keys c.attributes).filter (fun k => !gk.contains k))).flatten).toFinset

/-- The arguments `save_netcdf` passes to the external iris write
primitive. -/
structure WriteArgs where
  cubes : List Cube
  path : String
  localKeys : Finset String
  complevel : Int
  shuffle : Bool
  zlib : Bool
  chunksizes : Option (List Nat)
  least_significant_digit : Option Int
  fill_value : Option Int
deriving DecidableEq

/-- Assembles the write-primitive arguments exactly as `save_netcdf`
does: target is `filename ++ ".tmp"`, shuffle always on, zlib on iff the
compression level is positive. -/
def writeArgsOf (cubes1 : List Cube) (cubeVar : Cube) (chunksizes : Option (List Nat))
    (filename : String) (compression_level : Int)
    (least_significant_digit : Option Int) (fill_value : Option Int) : WriteArgs :=
  ⟨cubes1, filename ++ ".tmp", localKeys cubes1 (globalKeys cubeVar), compression_level,
    true, decide (0 < compression_level), chunksizes, least_significant_digit, fill_value⟩

/-- Outcome of one call to the external write primitive: success with the
file content it produced, or failure with an error message and the state
it left at the temporary path (`none`: absent). The primitive only ever
touches the path it is given. -/
inductive WriteResult where
  | ok (content : String)
  | err (msg : String) (tmpAfter : Option String)

/-- The filesystem, as a map from paths to optional file contents. -/
def FS : Type :=
  String → Option String

/-- Point update of the filesystem at one path. -/
def FS.update (fs : FS) (p : String) (v : Option String) : FS :=
  fun q => if q = p then v else fs q

/-- The outcome of a `save_netcdf` call: the result (unit or a raised
error), the caller-visible state of the cubes, the filesystem, and the
warnings emitted. -/
structure SaveOutcome where
  result : Except SaveError Unit
  cubes : List Cube
  fs : FS
  warnings : List String

/-- The write-and-rename tail of `save_netcdf`: call the external write
primitive on the temporary path; on success rename the temporary file to
`filename` (`os.rename`), on failure propagate the error with the final
path untouched. -/
def writePhase (write : WriteArgs → WriteResult) (args : WriteArgs) (filename : String)
    (fs : FS) (cubes1 : List Cube) (warns : List String) : SaveOutcome :=
  match write args with
  | WriteResult.ok content =>
    let fs1 := FS.update fs args.path (some content)
    let fs2 := FS.update (FS.update fs1 args.path none) filename (some content)
    ⟨Except.ok (), cubes1, fs2, warns⟩
  | WriteResult.err m tmpAfter =>
    ⟨Except.error (SaveError.ioError m), cubes1, FS.update fs args.path tmpAfter, warns⟩

/-- Warning message on cubes of varying dimensions. -/
def varyingDimsMsg : String :=
  "Chunksize not set as cubelist contains cubes of varying dimensions"

/-- Error message for an out-of-range compression level. -/
def compressionMsg : String :=
  "Compression level must be an integer value between 0 and 9 (0 to disable compression)"

/-- The part of `save_netcdf` after the validation loop succeeded, on the
mutated cube list `cubes1`: chunk planning, global/local key
classification (raising `NameError` when the local variable `cube` is
unbound, i.e. on an empty batch), compression-level validation, then the
atomic write. -/
def afterValidation (write : WriteArgs → WriteResult) (cubes1 : List Cube)
    (filename : String) (compression_level : Int)
    (least_significant_digit : Option Int) (fill_value : Option Int)
    (fs : FS) : SaveOutcome :=
  let ck := chunkStep cubes1 cubes1.getLast?
  let warns := if ck.warned then [varyingDimsMsg] else []
  match ck.cubeVar with
  | none => ⟨Except.error SaveError.nameError, cubes1, fs, warns⟩
  | some cv =>
    if compression_level < 0 ∨ 9 < compression_level then
      ⟨Except.error (SaveError.configurationError compressionMsg), cubes1, fs, warns⟩
    else
      writePhase write
        (writeArgsOf cubes1 cv ck.chunksizes filename compression_level
          least_significant_digit fill_value)
        filename fs cubes1 warns

/-- The input to `save_netcdf`: a single cube or a collection of cubes
(Python accepts a `Cube`, a `CubeList`, or any iterable). -/
inductive SaveInput where
  | single (c : Cube)
  | list (cubes : List Cube)

/-- Input normalization: a single cube becomes a one-element cube list,
a collection is taken in order. -/
def normalizeInput : SaveInput → List Cube
  | SaveInput.single c => [c]
  | SaveInput.list l => l

/-- `save_netcdf`, as a function of the external write primitive, the
input, the target filename, the keyword parameters, and the initial
filesystem. -/
def save_netcdf (write : WriteArgs → WriteResult) (input : SaveInput)
    (filename : String) (compression_level : Int)
    (least_significant_digit : Option Int) (fill_value : Option Int)
    (fs : FS) : SaveOutcome :=
  match validateCubes (normalizeInput input) with
  | (cubes1, some e) => ⟨Except.error e, cubes1, fs, []⟩
  | (cubes1, none) =>
    afterValidation write cubes1 filename compression_level
      least_significant_digit fill_value fs

/-! Concrete fixtures used to evaluate the definitions on sample inputs. -/

/-- A valid cube with no domain-specific attributes. -/
def cubeA : Cube :=
  ⟨"air_temperature", "K", true, [], [("title", "t"), ("inst_attr", "1")], [4, 5]⟩

/-- A valid cube carrying a `mosg__` attribute key. -/
def cubeB : Cube :=
  ⟨"wind_speed", "K", true, [], [("mosg__model", "uk_det"), ("other", "2")], [4, 5]⟩

/-- A valid cube carrying a stale `least_significant_digit` attribute. -/
def cubeL : Cube :=
  ⟨"rainfall_rate", "mm", true, [], [("least_significant_digit", "2"), ("title", "t")], [4, 5]⟩

/-- A cube whose units are the unknown sentinel. -/
def cubeU : Cube :=
  ⟨"visibility", "unknown", true, [], [], [4, 5]⟩

/-- Shape `[2, 2, 4]`: leading two dims `[2, 2]`, trailing two `[2, 4]`. -/
def cubeS1 : Cube :=
  ⟨"s1", "K", true, [], [], [2, 2, 4]⟩

/-- Shape `[2, 2, 5]`: same leading two dims as `cubeS1`, different trailing two. -/
def cubeS2 : Cube :=
  ⟨"s2", "K", true, [], [], [2, 2, 5]⟩

/-- Shape `[2, 3, 4]`: same trailing two dims as `cubeS4`, different leading two. -/
def cubeS3 : Cube :=
  ⟨"s3", "K", true, [], [], [2, 3, 4]⟩

/-- Shape `[5, 3, 4]`. -/
def cubeS4 : Cube :=
  ⟨"s4", "K", true, [], [], [5, 3, 4]⟩

/-- An initially empty filesystem. -/
def fs0 : FS :=
  fun _ => none

/-- A write primitive that always succeeds. -/
def okWrite : WriteArgs → WriteResult :=
  fun _ => WriteResult.ok "written"

/-- A write primitive that always fails, leaving a partial temporary file. -/
def failWrite : WriteArgs → WriteResult :=
  fun _ => WriteResult.err "disk full" (some "partial")

/-- A write primitive that fails exactly when it is handed `mosg__model`
among the local (per-cube) keys, so a run observes the classification. -/
def captureMosg : WriteArgs → WriteResult :=
  fun a => if "mosg__model" ∈ a.localKeys then WriteResult.err "local" none
    else WriteResult.ok "written"

/-! Helper lemmas about the embedded definitions. -/

theorem orderCellMethods_units (c : Cube) : (_order_cell_methods c).units = c.units :=
  rfl

theorem check_metadata_error_is_metadata {c : Cube} {e : SaveError}
    (h : _check_metadata c = Except.error e) : ∃ msg, e = SaveError.metadataError msg := by
  unfold _check_metadata check_mandatory_standards at h
  by_cases hs : c.standardsOk
  · simp only [hs, if_true] at h
    by_cases hu : unitIsUnknown c.units
    · simp only [hu, if_true] at h
      exact ⟨c.name ++ " has unknown units", by injection h with h2; exact h2.symm⟩
    · simp [hu] at h
  · simp only [hs, if_false] at h
    exact ⟨"mandatory standards violated for " ++ c.name, by
      injection h with h2
      exact h2.symm⟩

theorem check_metadata_ok_known_units {c : Cube}
    (h : _check_metadata c = Except.ok ()) : unitIsUnknown c.units = false := by
  unfold _check_metadata check_mandatory_standards at h
  by_cases hs : c.standardsOk
  · simp only [hs, if_true] at h
    by_cases hu : unitIsUnknown c.units
    · simp [hu] at h
    · simpa using hu
  · simp only [hs, if_false] at h
    cases h

theorem validateCubes_cons_err {a : Cube} {rest : List Cube} {e : SaveError}
    (h : _check_metadata (_order_cell_methods a) = Except.error e) :
    validateCubes (a :: rest) = (_order_cell_methods a :: rest, some e) := by
  unfold validateCubes
  rw [h]

theorem validateCubes_cons_ok {a : Cube} {rest : List Cube}
    (h : _check_metadata (_order_cell_methods a) = Except.ok ()) :
    validateCubes (a :: rest) =
      (processCube a :: (validateCubes rest).1, (validateCubes rest).2) := by
  conv_lhs => rw [validateCubes]
  rw [h]

theorem validateCubes_ok_eq_map {cubes cubes1 : List Cube}
    (h : validateCubes cubes = (cubes1, none)) : cubes1 = cubes.map processCube := by
  induction cubes generalizing cubes1 with
  | nil =>
    simp only [validateCubes] at h
    injection h with h1 h2
    simp [h1.symm]
  | cons a rest ih =>
    cases hc : _check_metadata (_order_cell_methods a) with
    | error e =>
      rw [validateCubes_cons_err hc] at h
      injection h with h1 h2
      cases h2
    | ok u =>
      cases u
      rw [validateCubes_cons_ok hc] at h
      injection h with h1 h2
      have hrest : validateCubes rest = ((validateCubes rest).1, none) := by
        rw [← h2]
      rw [← h1, ih hrest]
      simp

theorem validateCubes_snd_metadata {cubes : List Cube} {l : List Cube} {e : SaveError}
    (h : validateCubes cubes = (l, some e)) : ∃ msg, e = SaveError.metadataError msg := by
  induction cubes generalizing l e with
  | nil =>
    simp only [validateCubes] at h
    injection h with h1 h2
    cases h2
  | cons a rest ih =>
    cases hc : _check_metadata (_order_cell_methods a) with
    | error e2 =>
      rw [validateCubes_cons_err hc] at h
      injection h with h1 h2
      injection h2 with h3
      subst h3
      exact check_metadata_error_is_metadata hc
    | ok u =>
      cases u
      rw [validateCubes_cons_ok hc] at h
      injection h with h1 h2
      have hrest : validateCubes rest = ((validateCubes rest).1, some e) := by
        rw [← h2]
      exact ih hrest

theorem validateCubes_unknown_units {cubes : List Cube} {c : Cube}
    (hc : c ∈ cubes) (hu : unitIsUnknown c.units = true) :
    ∃ l msg, validateCubes cubes = (l, some (SaveError.metadataError msg)) := by
  induction cubes with
  | nil => cases hc
  | cons a rest ih =>
    cases hcm : _check_metadata (_order_cell_methods a) with
    | error e =>
      obtain ⟨msg, hmsg⟩ := check_metadata_error_is_metadata hcm
      exact ⟨_order_cell_methods a :: rest, msg, by rw [validateCubes_cons_err hcm, hmsg]⟩
    | ok u =>
      cases u
      rcases List.mem_cons.mp hc with h1 | h1
      · subst h1
        have := check_metadata_ok_known_units hcm
        rw [orderCellMethods_units] at this
        rw [hu] at this
        cases this
      · obtain ⟨l, msg, hrest⟩ := ih h1
        refine ⟨processCube a :: l, msg, ?_⟩
        rw [validateCubes_cons_ok hcm, hrest]

theorem mem_localKeys {cubes : List Cube} {gk : List String} {k : String} :
    k ∈ localKeys cubes gk ↔ ∃ c ∈ cubes, k ∈ Attrs.keys c.attributes ∧ k ∉ gk := by
  simp [localKeys, List.mem_toFinset, List.mem_flatten, List.mem_map, List.mem_filter]

theorem hasKey_pop (a : Attrs) (k : String) : Attrs.hasKey (Attrs.pop a k) k = false := by
  simp only [Attrs.hasKey, Attrs.pop, List.any_eq_false]
  intro kv hkv
  rw [List.mem_filter] at hkv
  simp only [bne_iff_ne, ne_eq] at hkv
  simpa using hkv.2

theorem pop_of_hasKey_false {a : Attrs} {k : String}
    (h : Attrs.hasKey a k = false) : Attrs.pop a k = a := by
  rw [Attrs.pop, List.filter_eq_self]
  intro kv hkv
  simp only [Attrs.hasKey, List.any_eq_false] at h
  have := h kv hkv
  simpa using this

theorem writePhase_result (write : WriteArgs → WriteResult) (args : WriteArgs)
    (filename : String) (fs : FS) (cubes1 : List Cube) (warns : List String) :
    (writePhase write args filename fs cubes1 warns).result = Except.ok () ∨
    ∃ m, (writePhase write args filename fs cubes1 warns).result =
      Except.error (SaveError.ioError m) := by
  unfold writePhase
  cases write args with
  | ok c => exact Or.inl rfl
  | err m t => exact Or.inr ⟨m, rfl⟩

theorem chunkStep_cubeVar_uniform {cubes : List Cube} {cv0 : Option Cube} {cv : Cube}
    (hlen : (leadingShapes cubes).length = 1)
    (h : (chunkStep cubes cv0).cubeVar = some cv) : cubes.head? = some cv := by
  unfold chunkStep at h
  rw [if_pos hlen] at h
  cases hh : cubes.head? with
  | some c =>
    rw [hh] at h
    simp only at h
    exact h
  | none =>
    have hnil : cubes = [] := List.head?_eq_none_iff.mp hh
    subst hnil
    simp [leadingShapes, List.dedup] at hlen

theorem chunkStep_cubeVar_nonuniform {cubes : List Cube} {cv0 : Option Cube}
    (hlen : ¬(leadingShapes cubes).length = 1) :
    (chunkStep cubes cv0).cubeVar = cv0 := by
  unfold chunkStep
  rw [if_neg hlen]

theorem save_netcdf_of_validate_err {write : WriteArgs → WriteResult} {input : SaveInput}
    {filename : String} {cl : Int} {lsd fv : Option Int} {fs : FS}
    {cubes1 : List Cube} {e : SaveError}
    (hval : validateCubes (normalizeInput input) = (cubes1, some e)) :
    save_netcdf write input filename cl lsd fv fs = ⟨Except.error e, cubes1, fs, []⟩ := by
  unfold save_netcdf
  rw [hval]

theorem save_netcdf_of_validate_ok {write : WriteArgs → WriteResult} {input : SaveInput}
    {filename : String} {cl : Int} {lsd fv : Option Int} {fs : FS} {cubes1 : List Cube}
    (hval : validateCubes (normalizeInput input) = (cubes1, none)) :
    save_netcdf write input filename cl lsd fv fs =
      afterValidation write cubes1 filename cl lsd fv fs := by
  unfold save_netcdf
  rw [hval]

theorem afterValidation_nameError {write : WriteArgs → WriteResult} {cubes1 : List Cube}
    {filename : String} {cl : Int} {lsd fv : Option Int} {fs : FS}
    (hcv : (chunkStep cubes1 cubes1.getLast?).cubeVar = none) :
    afterValidation write cubes1 filename cl lsd fv fs =
      ⟨Except.error SaveError.nameError, cubes1, fs,
        if (chunkStep cubes1 cubes1.getLast?).warned then [varyingDimsMsg] else []⟩ := by
  simp only [afterValidation]
  rw [hcv]

theorem afterValidation_config_err {write : WriteArgs → WriteResult} {cubes1 : List Cube}
    {filename : String} {cl : Int} {lsd fv : Option Int} {fs : FS} {cv : Cube}
    (hcv : (chunkStep cubes1 cubes1.getLast?).cubeVar = some cv)
    (hcl : cl < 0 ∨ 9 < cl) :
    afterValidation write cubes1 filename cl lsd fv fs =
      ⟨Except.error (SaveError.configurationError compressionMsg), cubes1, fs,
        if (chunkStep cubes1 cubes1.getLast?).warned then [varyingDimsMsg] else []⟩ := by
  simp only [afterValidation]
  rw [hcv]
  simp only [if_pos hcl]

theorem afterValidation_write {write : WriteArgs → WriteResult} {cubes1 : List Cube}
    {filename : String} {cl : Int} {lsd fv : Option Int} {fs : FS} {cv : Cube}
    (hcv : (chunkStep cubes1 cubes1.getLast?).cubeVar = some cv)
    (hcl : ¬(cl < 0 ∨ 9 < cl)) :
    afterValidation write cubes1 filename cl lsd fv fs =
      writePhase write
        (writeArgsOf cubes1 cv (chunkStep cubes1 cubes1.getLast?).chunksizes filename cl lsd fv)
        filename fs cubes1
        (if (chunkStep cubes1 cubes1.getLast?).warned then [varyingDimsMsg] else []) := by
  simp only [afterValidation]
  rw [hcv]
  simp only [if_neg hcl]

theorem tmp_path_ne (s : String) : ¬(s = s ++ ".tmp") := by
  intro h
  have hl := congrArg String.length h
  rw [String.length_append] at hl
  have h4 : String.length ".tmp" = 4 := rfl
  rw [h4] at hl
  omega

/-! The claim theorems. -/

/-- C7: after `_order_cell_methods`, the cube's cell-method sequence has no
duplicates and is sorted in the fixed deterministic order, and the
canonicalization is idempotent: applying it again changes nothing. -/
theorem cell_methods_canonical (c : Cube) :
    (_order_cell_methods c).cellMethods.Nodup ∧
    List.Sorted (· ≤ ·) (_order_cell_methods c).cellMethods ∧
    _order_cell_methods (_order_cell_methods c) = _order_cell_methods c := by
  have hnd : (List.insertionSort (· ≤ ·) c.cellMethods.dedup).Nodup :=
    ((List.perm_insertionSort (· ≤ ·) c.cellMethods.dedup).nodup_iff).mpr
      (List.nodup_dedup c.cellMethods)
  have hs : List.Sorted (· ≤ ·) (List.insertionSort (· ≤ ·) c.cellMethods.dedup) :=
    List.sorted_insertionSort (· ≤ ·) c.cellMethods.dedup
  refine ⟨hnd, hs, ?_⟩
  unfold _order_cell_methods
  simp only
  rw [hnd.dedup, hs.insertionSort_eq]

/-- C9: saving a single cube behaves identically to saving the one-element
list containing it, for every write primitive, filename, parameter setting
and filesystem; input normalization returns the cubes in order. -/
theorem single_cube_list_equiv (write : WriteArgs → WriteResult) (c : Cube) (l : List Cube)
    (filename : String) (cl : Int) (lsd fv : Option Int) (fs : FS) :
    save_netcdf write (SaveInput.single c) filename cl lsd fv fs =
      save_netcdf write (SaveInput.list [c]) filename cl lsd fv fs ∧
    normalizeInput (SaveInput.single c) = [c] ∧
    normalizeInput (SaveInput.list l) = l :=
  ⟨rfl, rfl, rfl⟩

/-- C4: on an empty collection `save_netcdf` does crash: the local variable
`cube` is never bound, so the global-attribute collection step raises
`NameError` (after emitting the varying-dimensions warning), with the
filesystem untouched. This evaluates the code at the failing input. -/
theorem empty_input_name_error :
    (save_netcdf okWrite (SaveInput.list []) "f.nc" 1 none none fs0).result =
      Except.error SaveError.nameError ∧
    (save_netcdf okWrite (SaveInput.list []) "f.nc" 1 none none fs0).fs "f.nc" = none ∧
    (save_netcdf okWrite (SaveInput.list []) "f.nc" 1 none none fs0).fs "f.nc.tmp" = none ∧
    (save_netcdf okWrite (SaveInput.list []) "f.nc" 1 none none fs0).warnings =
      [varyingDimsMsg] := by
  exact ⟨by decide, rfl, rfl, by decide⟩

/-- C3: the chunk plan keys on the LEADING two dimensions (`shape[:2]`), not
the trailing two: the batch (cubeS1, cubeS2) has differing trailing-two
shapes yet gets chunk shape (1, 2, 4) with no warning, while (cubeS3, cubeS4)
has equal trailing-two shapes yet gets no chunk shape and the warning.  This
evaluates the code at the failing inputs. -/
theorem chunk_plan_uses_leading_dims :
    ((chunkStep [cubeS1, cubeS2] (some cubeS2)).chunksizes = some [1, 2, 4] ∧
      (chunkStep [cubeS1, cubeS2] (some cubeS2)).warned = false ∧
      cubeS1.shape.drop (cubeS1.shape.length - 2) ≠
        cubeS2.shape.drop (cubeS2.shape.length - 2)) ∧
    ((chunkStep [cubeS3, cubeS4] (some cubeS4)).chunksizes = none ∧
      (chunkStep [cubeS3, cubeS4] (some cubeS4)).warned = true ∧
      cubeS3.shape.drop (cubeS3.shape.length - 2) =
        cubeS4.shape.drop (cubeS4.shape.length - 2)) ∧
    (save_netcdf okWrite (SaveInput.list [cubeS1, cubeS2]) "f.nc" 1 none none fs0).warnings =
      [] ∧
    (save_netcdf okWrite (SaveInput.list [cubeS3, cubeS4]) "f.nc" 1 none none fs0).warnings =
      [varyingDimsMsg] := by
  decide

/-- C2 counterexample: `mosg__model` matches the domain pattern and is an
attribute key of `cubeB`, a cube of the batch, yet the classification passes
it to the writer among the LOCAL keys (the `mosg__` scan only looked at the
first cube), so the global key set is not the stated union over all cubes. -/
theorem attr_classification_counterexample :
    mosgKey "mosg__model" = true ∧
    "mosg__model" ∈ Attrs.keys cubeB.attributes ∧
    (save_netcdf captureMosg (SaveInput.list [cubeA, cubeB]) "f.nc" 1 none none fs0).result =
      Except.error (SaveError.ioError "local") := by
  decide

/-- C2 amended: the local key set passed to the writer is exactly every
attribute key on any cube of the batch that is not in the global list, where
the global list is the fixed allow-list plus the keys containing the
substring `mosg__` of one single cube: the first cube of the batch when the
leading-two-dimension shapes are uniform, otherwise the last cube. -/
theorem attr_classification_amended
    (cubes1 : List Cube) (cv : Cube) (cs : Option (List Nat))
    (filename : String) (cl : Int) (lsd fv : Option Int)
    (hcv : (chunkStep cubes1 cubes1.getLast?).cubeVar = some cv) (k : String) :
    (k ∈ (writeArgsOf cubes1 cv cs filename cl lsd fv).localKeys ↔
      ∃ c ∈ cubes1, k ∈ Attrs.keys c.attributes ∧ k ∉ globalKeys cv) ∧
    ((leadingShapes cubes1).length = 1 → cubes1.head? = some cv) ∧
    (¬(leadingShapes cubes1).length = 1 → cubes1.getLast? = some cv) := by
  refine ⟨mem_localKeys, fun hlen => chunkStep_cubeVar_uniform hlen hcv, fun hlen => ?_⟩
  have h2 : (chunkStep cubes1 cubes1.getLast?).cubeVar = cubes1.getLast? :=
    chunkStep_cubeVar_nonuniform hlen
  rw [← h2]
  exact hcv

/-- C2 amended, witness at a concrete batch where the designated cube is the
first one and the key `mosg__model` sits on the second cube only. -/
theorem attr_classification_amended_witness :
    ("mosg__model" ∈ (writeArgsOf [cubeA, cubeB] cubeA none "f.nc" 1 none none).localKeys ↔
      ∃ c ∈ [cubeA, cubeB], "mosg__model" ∈ Attrs.keys c.attributes ∧
        "mosg__model" ∉ globalKeys cubeA) ∧
    ((leadingShapes [cubeA, cubeB]).length = 1 → [cubeA, cubeB].head? = some cubeA) ∧
    (¬(leadingShapes [cubeA, cubeB]).length = 1 → [cubeA, cubeB].getLast? = some cubeA) :=
  attr_classification_amended [cubeA, cubeB] cubeA none "f.nc" 1 none none (by decide)
    "mosg__model"

/-- C5: a batch containing a cube whose units are the unknown sentinel fails
with a metadata error and the filesystem is completely untouched: no file is
written at the temporary or the final path. -/
theorem unknown_units_rejected (write : WriteArgs → WriteResult) (input : SaveInput)
    (filename : String) (cl : Int) (lsd fv : Option Int) (fs : FS) (c : Cube)
    (hc : c ∈ normalizeInput input) (hu : unitIsUnknown c.units = true) :
    (∃ msg, (save_netcdf write input filename cl lsd fv fs).result =
      Except.error (SaveError.metadataError msg)) ∧
    ∀ p, (save_netcdf write input filename cl lsd fv fs).fs p = fs p := by
  obtain ⟨l, msg, hval⟩ := validateCubes_unknown_units hc hu
  rw [save_netcdf_of_validate_err hval]
  exact ⟨⟨msg, rfl⟩, fun p => rfl⟩

/-- C5, witness: a concrete batch whose second cube has unknown units. -/
theorem unknown_units_rejected_witness :
    cubeU ∈ normalizeInput (SaveInput.list [cubeA, cubeU]) ∧
    unitIsUnknown cubeU.units = true ∧
    ((∃ msg,
      (save_netcdf okWrite (SaveInput.list [cubeA, cubeU]) "f.nc" 1 none none fs0).result =
        Except.error (SaveError.metadataError msg)) ∧
    ∀ p, (save_netcdf okWrite (SaveInput.list [cubeA, cubeU]) "f.nc" 1 none none fs0).fs p =
      fs0 p) :=
  ⟨by decide, by decide,
    unknown_units_rejected okWrite (SaveInput.list [cubeA, cubeU]) "f.nc" 1 none none fs0
      cubeU (by decide) (by decide)⟩

/-- C1: on a save that reaches the write step, the serialization target is
`filename ++ ".tmp"`; on success of the external write the content is renamed
to the final path (which then holds the content, the temporary path being
gone), and whenever the external write raises, the rename never executes: the
result is the propagated error, the final path is untouched, and so is every
path other than the temporary one. -/
theorem atomic_write (write : WriteArgs → WriteResult) (input : SaveInput)
    (filename : String) (cl : Int) (lsd fv : Option Int) (fs : FS)
    (cubes1 : List Cube) (cv : Cube)
    (hval : validateCubes (normalizeInput input) = (cubes1, none))
    (hcv : (chunkStep cubes1 cubes1.getLast?).cubeVar = some cv)
    (hcl : ¬(cl < 0 ∨ 9 < cl)) :
    (writeArgsOf cubes1 cv (chunkStep cubes1 cubes1.getLast?).chunksizes
      filename cl lsd fv).path = filename ++ ".tmp" ∧
    (∀ content,
      write (writeArgsOf cubes1 cv (chunkStep cubes1 cubes1.getLast?).chunksizes
        filename cl lsd fv) = WriteResult.ok content →
      (save_netcdf write input filename cl lsd fv fs).result = Except.ok () ∧
      (save_netcdf write input filename cl lsd fv fs).fs filename = some content ∧
      (save_netcdf write input filename cl lsd fv fs).fs (filename ++ ".tmp") = none) ∧
    (∀ m tmpAfter,
      write (writeArgsOf cubes1 cv (chunkStep cubes1 cubes1.getLast?).chunksizes
        filename cl lsd fv) = WriteResult.err m tmpAfter →
      (save_netcdf write input filename cl lsd fv fs).result =
        Except.error (SaveError.ioError m) ∧
      (save_netcdf write input filename cl lsd fv fs).fs filename = fs filename ∧
      ∀ p, ¬(p = filename ++ ".tmp") →
        (save_netcdf write input filename cl lsd fv fs).fs p = fs p) := by
  rw [save_netcdf_of_validate_ok hval, afterValidation_write hcv hcl]
  have hne1 : ¬(filename ++ ".tmp" = filename) := fun h2 => tmp_path_ne filename h2.symm
  have hne2 : ¬(filename = filename ++ ".tmp") := tmp_path_ne filename
  refine ⟨rfl, ?_, ?_⟩
  · intro content hw
    unfold writePhase
    rw [hw]
    refine ⟨rfl, ?_, ?_⟩
    · simp [FS.update, writeArgsOf]
    · simp [FS.update, writeArgsOf, hne1]
  · intro m tmpAfter hw
    unfold writePhase
    rw [hw]
    refine ⟨rfl, ?_, ?_⟩
    · simp [FS.update, writeArgsOf, hne2]
    · intro p hp
      simp [FS.update, writeArgsOf, hp]

/-- C1, witness: a concrete save whose external write fails; the final path
is untouched (still absent) and the error propagates. -/
theorem atomic_write_witness :
    (save_netcdf failWrite (SaveInput.single cubeA) "out.nc" 1 none none fs0).result =
      Except.error (SaveError.ioError "disk full") ∧
    (save_netcdf failWrite (SaveInput.single cubeA) "out.nc" 1 none none fs0).fs "out.nc" =
      fs0 "out.nc" ∧
    ∀ p, ¬(p = "out.nc" ++ ".tmp") →
      (save_netcdf failWrite (SaveInput.single cubeA) "out.nc" 1 none none fs0).fs p =
        fs0 p :=
  (atomic_write failWrite (SaveInput.single cubeA) "out.nc" 1 none none fs0
    [processCube cubeA] (processCube cubeA) (by decide) (by decide) (by decide)).2.2
    "disk full" (some "partial") rfl

/-- C6: on a save that reaches past validation, an out-of-range compression
level fails with the configuration error and no path of the filesystem is
touched, while an in-range level proceeds to the write phase with the zlib
deflate flag set exactly when the level is positive. -/
theorem compression_level_validated (write : WriteArgs → WriteResult) (input : SaveInput)
    (filename : String) (cl : Int) (lsd fv : Option Int) (fs : FS)
    (cubes1 : List Cube) (cv : Cube)
    (hval : validateCubes (normalizeInput input) = (cubes1, none))
    (hcv : (chunkStep cubes1 cubes1.getLast?).cubeVar = some cv) :
    ((cl < 0 ∨ 9 < cl) →
      (save_netcdf write input filename cl lsd fv fs).result =
        Except.error (SaveError.configurationError compressionMsg) ∧
      ∀ p, (save_netcdf write input filename cl lsd fv fs).fs p = fs p) ∧
    (¬(cl < 0 ∨ 9 < cl) →
      save_netcdf write input filename cl lsd fv fs =
        writePhase write
          (writeArgsOf cubes1 cv (chunkStep cubes1 cubes1.getLast?).chunksizes
            filename cl lsd fv)
          filename fs cubes1
          (if (chunkStep cubes1 cubes1.getLast?).warned then [varyingDimsMsg] else []) ∧
      ((writeArgsOf cubes1 cv (chunkStep cubes1 cubes1.getLast?).chunksizes
        filename cl lsd fv).zlib = true ↔ 0 < cl)) := by
  constructor
  · intro hcl
    rw [save_netcdf_of_validate_ok hval, afterValidation_config_err hcv hcl]
    exact ⟨rfl, fun p => rfl⟩
  · intro hcl
    refine ⟨?_, ?_⟩
    · rw [save_netcdf_of_validate_ok hval, afterValidation_write hcv hcl]
    · simp [writeArgsOf]

/-- C6, witness: compression level 10 on a concrete valid batch fails with
the configuration error and leaves the filesystem untouched. -/
theorem compression_level_validated_witness :
    (save_netcdf okWrite (SaveInput.list [cubeA]) "f.nc" 10 none none fs0).result =
      Except.error (SaveError.configurationError compressionMsg) ∧
    ∀ p, (save_netcdf okWrite (SaveInput.list [cubeA]) "f.nc" 10 none none fs0).fs p =
      fs0 p :=
  (compression_level_validated okWrite (SaveInput.list [cubeA]) "f.nc" 10 none none fs0
    [processCube cubeA] (processCube cubeA) (by decide) (by decide)).1 (by decide)

/-- C8: when validation succeeds, every cube handed on to the write step has
its attributes equal to its original attributes with any
`least_significant_digit` entry removed; in particular the key is absent
afterwards, and a cube that did not carry the key keeps its attribute
mapping unchanged. -/
theorem stale_precision_attr_removed (cubes cubes1 : List Cube)
    (hval : validateCubes cubes = (cubes1, none)) :
    List.Forall₂ (fun c c1 =>
      c1.attributes = Attrs.pop c.attributes lsdKey ∧
      Attrs.hasKey c1.attributes lsdKey = false ∧
      (Attrs.hasKey c.attributes lsdKey = false → c1.attributes = c.attributes))
      cubes cubes1 := by
  have h1 := validateCubes_ok_eq_map hval
  subst h1
  clear hval
  induction cubes with
  | nil => exact List.Forall₂.nil
  | cons a rest ih =>
    refine List.Forall₂.cons ⟨rfl, ?_, ?_⟩ ih
    · exact hasKey_pop a.attributes lsdKey
    · intro h
      exact pop_of_hasKey_false h

/-- C8, witness: a concrete batch whose first cube carries the stale
attribute and whose second does not. -/
theorem stale_precision_attr_removed_witness :
    List.Forall₂ (fun c c1 =>
      c1.attributes = Attrs.pop c.attributes lsdKey ∧
      Attrs.hasKey c1.attributes lsdKey = false ∧
      (Attrs.hasKey c.attributes lsdKey = false → c1.attributes = c.attributes))
      [cubeL, cubeA] [processCube cubeL, processCube cubeA] :=
  stale_precision_attr_removed [cubeL, cubeA] [processCube cubeL, processCube cubeA]
    (by decide)

/-- C10: whenever `save_netcdf` raises the compression-level configuration
error, the caller-visible cube list has already been fully mutated: every
cube's cell methods are replaced by the canonical sequence and its stale
precision attribute removed (`processCube`). -/
theorem mutation_precedes_compression_error (write : WriteArgs → WriteResult)
    (input : SaveInput) (filename : String) (cl : Int) (lsd fv : Option Int) (fs : FS)
    (h : (save_netcdf write input filename cl lsd fv fs).result =
      Except.error (SaveError.configurationError compressionMsg)) :
    (save_netcdf write input filename cl lsd fv fs).cubes =
      (normalizeInput input).map processCube := by
  cases hval : validateCubes (normalizeInput input) with
  | mk cubes1 eopt =>
    cases eopt with
    | some e =>
      rw [save_netcdf_of_validate_err hval] at h
      obtain ⟨msg, rfl⟩ := validateCubes_snd_metadata hval
      injection h with h2
      exact SaveError.noConfusion h2
    | none =>
      rw [save_netcdf_of_validate_ok hval] at h ⊢
      cases hcv : (chunkStep cubes1 cubes1.getLast?).cubeVar with
      | none =>
        rw [afterValidation_nameError hcv] at h
        injection h with h2
        exact SaveError.noConfusion h2
      | some cv =>
        by_cases hcl : cl < 0 ∨ 9 < cl
        · rw [afterValidation_config_err hcv hcl]
          exact validateCubes_ok_eq_map hval
        · rw [afterValidation_write hcv hcl] at h
          rcases writePhase_result write
              (writeArgsOf cubes1 cv (chunkStep cubes1 cubes1.getLast?).chunksizes
                filename cl lsd fv) filename fs cubes1
              (if (chunkStep cubes1 cubes1.getLast?).warned then [varyingDimsMsg] else [])
            with hres | ⟨m, hres⟩
          · rw [hres] at h
            exact Except.noConfusion h
          · rw [hres] at h
            injection h with h2
            exact SaveError.noConfusion h2

/-- C10, witness: a concrete batch needing both mutations, saved with
compression level 10. -/
theorem mutation_precedes_compression_error_witness :
    (save_netcdf okWrite (SaveInput.list [cubeL, cubeB]) "f.nc" 10 none none fs0).cubes =
      (normalizeInput (SaveInput.list [cubeL, cubeB])).map processCube :=
  mutation_precedes_compression_error okWrite (SaveInput.list [cubeL, cubeB]) "f.nc" 10
    none none fs0 (by decide)

end Save
